import Mathlib

/-!
Verification of the porter application-specification translation and
reconciliation engine, shallowly embedded from the repository sources.

The canonicalizer (YAML structure to canonical proto specification) is
embedded from the Go functions in the v2 package: AppProtoFromYaml,
protoEnumFromType and serviceProtoFromConfig.  The client form-model
adapter is embedded from the dashboard functions clientAppFromProto and
clientAppToProto.  Go maps are modelled as association lists, pointers as
Option, int32 conversions as explicit wrapping of unbounded integers, and
float32 resource quantities as rationals (the code only copies them, so
any exact carrier is faithful).
-/

namespace Porter

/-- Service kinds of the canonical specification, mirroring the proto
enum ServiceType (UNSPECIFIED = 0, WEB = 1, WORKER = 2, JOB = 3). -/
inductive ServiceType where
  | unspecified
  | web
  | worker
  | job
deriving DecidableEq

/-- Autoscaling settings as written in a porter YAML document. -/
structure AutoScaling where
  enabled : Bool
  minInstances : Int
  maxInstances : Int
  cpuThresholdPercent : Int
  memoryThresholdPercent : Int
deriving DecidableEq

/-- A custom domain entry of a web service in the YAML document. -/
structure Domains where
  name : String
deriving DecidableEq

/-- Health-check settings of a web service in the YAML document. -/
structure HealthCheck where
  enabled : Bool
  httpPath : String
deriving DecidableEq

/-- A single service entry of a porter YAML document (struct Service of
the v2 package).  Absent optional sub-structures are none; absent scalars
are the Go zero values. -/
structure Service where
  run : String
  type : String
  instances : Int
  cpuCores : ℚ
  ramMegabytes : Int
  port : Int
  autoscaling : Option AutoScaling
  domains : List Domains
  healthCheck : Option HealthCheck
  allowConcurrent : Bool
  cron : String
deriving DecidableEq

/-- The zero value of a YAML service entry. -/
def emptyService : Service :=
  { run := "", type := "", instances := 0, cpuCores := 0, ramMegabytes := 0
    port := 0, autoscaling := none, domains := [], healthCheck := none
    allowConcurrent := false, cron := "" }

/-- Build settings of a porter YAML document (struct Build). -/
structure Build where
  context : String
  method : String
  builder : String
  buildpacks : List String
  dockerfile : String
deriving DecidableEq

/-- Image settings of a porter YAML document (struct Image). -/
structure Image where
  repository : String
  tag : String
deriving DecidableEq

/-- The unmarshalled porter YAML document (struct PorterYAML).  The Go
Services map is nil when the key is absent, modelled as none. -/
structure PorterYAML where
  name : String
  services : Option (List (String × Service))
  image : Option Image
  build : Option Build
  env : List (String × String)
  predeploy : Option Service
deriving DecidableEq

/-- Proto Autoscaling message (int32 fields). -/
structure ProtoAutoscaling where
  enabled : Bool
  minInstances : Int
  maxInstances : Int
  cpuThresholdPercent : Int
  memoryThresholdPercent : Int
deriving DecidableEq

/-- Proto Domain message. -/
structure ProtoDomain where
  name : String
deriving DecidableEq

/-- Proto HealthCheck message. -/
structure ProtoHealthCheck where
  enabled : Bool
  httpPath : String
deriving DecidableEq

/-- Proto WebServiceConfig message. -/
structure WebServiceConfig where
  autoscaling : Option ProtoAutoscaling
  healthCheck : Option ProtoHealthCheck
  domains : List ProtoDomain
deriving DecidableEq

/-- Proto WorkerServiceConfig message. -/
structure WorkerServiceConfig where
  autoscaling : Option ProtoAutoscaling
deriving DecidableEq

/-- Proto JobServiceConfig message. -/
structure JobServiceConfig where
  allowConcurrent : Bool
  cron : String
deriving DecidableEq

/-- The oneof Config of the proto Service message. -/
inductive ServiceConfig where
  | webConfig (c : WebServiceConfig)
  | workerConfig (c : WorkerServiceConfig)
  | jobConfig (c : JobServiceConfig)
deriving DecidableEq

/-- Proto Service message.  serviceProtoFromConfig always sets the
config oneof on success, so it is not optional here. -/
structure ProtoService where
  run : String
  type : ServiceType
  instances : Int
  cpuCores : ℚ
  ramMegabytes : Int
  port : Int
  config : ServiceConfig
deriving DecidableEq

/-- Proto Build message. -/
structure ProtoBuild where
  context : String
  method : String
  builder : String
  buildpacks : List String
  dockerfile : String
deriving DecidableEq

/-- Proto AppImage message. -/
structure AppImage where
  repository : String
  tag : String
deriving DecidableEq

/-- Proto PorterApp message, the canonical application specification. -/
structure PorterApp where
  name : String
  env : List (String × String)
  build : Option ProtoBuild
  image : Option AppImage
  services : List (String × ProtoService)
  predeploy : Option ProtoService
deriving DecidableEq

/-- Go int32 conversion: wrap an unbounded integer into the signed
32-bit range, as int32(x) does. -/
def int32ofInt (n : Int) : Int :=
  (n + 2 ^ 31) % 2 ^ 32 - 2 ^ 31

/-- Does the character list s start with the list p? -/
def startsWith : List Char → List Char → Bool
  | _, [] => true
  | [], _ :: _ => false
  | a :: s, b :: t => a == b && startsWith s t

/-- Does the character list s contain sub as a contiguous sublist?
Embeds Go strings.Contains on the underlying characters. -/
def containsSub : List Char → List Char → Bool
  | s, sub =>
    startsWith s sub ||
      match s with
      | [] => false
      | _ :: t => containsSub t sub

/-- Go strings.Contains on strings. -/
def strContains (s sub : String) : Bool :=
  containsSub s.toList sub.toList

/-- Embeds protoEnumFromType: resolve a service kind from the explicit
type field when present, otherwise from substrings of the service name,
in the fixed order web, wkr, job. -/
def protoEnumFromType (name : String) (service : Service) :
    Except String ServiceType :=
  if service.type ≠ "" then
    if service.type = "web" then .ok .web
    else if service.type = "worker" then .ok .worker
    else if service.type = "job" then .ok .job
    else .error ("invalid service type " ++ service.type)
  else if strContains name "web" then .ok .web
  else if strContains name "wkr" then .ok .worker
  else if strContains name "job" then .ok .job
  else .error "no type provided and could not parse service type from name"

/-- Conversion of YAML autoscaling settings to the proto message, as
written inline in serviceProtoFromConfig. -/
def protoAutoscalingFromYaml (a : AutoScaling) : ProtoAutoscaling :=
  { enabled := a.enabled
    minInstances := int32ofInt a.minInstances
    maxInstances := int32ofInt a.maxInstances
    cpuThresholdPercent := int32ofInt a.cpuThresholdPercent
    memoryThresholdPercent := int32ofInt a.memoryThresholdPercent }

/-- Embeds serviceProtoFromConfig: build the proto Service for a
resolved kind, populating only that kind's config variant. -/
def serviceProtoFromConfig (service : Service) (serviceType : ServiceType) :
    Except String ProtoService :=
  let base := fun cfg =>
    ({ run := service.run
       type := serviceType
       instances := int32ofInt service.instances
       cpuCores := service.cpuCores
       ramMegabytes := int32ofInt service.ramMegabytes
       port := int32ofInt service.port
       config := cfg } : ProtoService)
  match serviceType with
  | .unspecified => .error "Service type unspecified"
  | .web =>
    let webConfig : WebServiceConfig :=
      { autoscaling := service.autoscaling.map protoAutoscalingFromYaml
        healthCheck := service.healthCheck.map
          (fun h => { enabled := h.enabled, httpPath := h.httpPath })
        domains := service.domains.map (fun d => { name := d.name }) }
    .ok (base (.webConfig webConfig))
  | .worker =>
    let workerConfig : WorkerServiceConfig :=
      { autoscaling := service.autoscaling.map protoAutoscalingFromYaml }
    .ok (base (.workerConfig workerConfig))
  | .job =>
    let jobConfig : JobServiceConfig :=
      { allowConcurrent := service.allowConcurrent, cron := service.cron }
    .ok (base (.jobConfig jobConfig))

/-- Process one named service entry of the services map: resolve the
kind, then build the proto service (the body of the loop in
AppProtoFromYaml). -/
def serviceEntryToProto (entry : String × Service) :
    Except String (String × ProtoService) := do
  let serviceType ← protoEnumFromType entry.1 entry.2
  let serviceProto ← serviceProtoFromConfig entry.2 serviceType
  return (entry.1, serviceProto)

/-- The services loop of AppProtoFromYaml: convert every entry, the
first failure aborting the whole conversion. -/
def mapServices : List (String × Service) →
    Except String (List (String × ProtoService))
  | [] => .ok []
  | e :: es => do
    let x ← serviceEntryToProto e
    let xs ← mapServices es
    return x :: xs

/-- Embeds AppProtoFromYaml.  The input is none when the YAML bytes are
nil or do not unmarshal (both are propagated errors in the source before
any field is inspected). -/
def AppProtoFromYaml (input : Option PorterYAML) : Except String PorterApp := do
  match input with
  | none => .error "porter yaml is nil or malformed"
  | some porterYaml => do
    let build := porterYaml.build.map (fun b =>
      ({ context := b.context, method := b.method, builder := b.builder
         buildpacks := b.buildpacks, dockerfile := b.dockerfile } : ProtoBuild))
    let image := porterYaml.image.map (fun i =>
      ({ repository := i.repository, tag := i.tag } : AppImage))
    match porterYaml.services with
    | none => .error "porter yaml is missing services"
    | some serviceEntries => do
      let services ← mapServices serviceEntries
      let predeploy ← match porterYaml.predeploy with
        | none => pure none
        | some pre => do
          let predeployProto ← serviceProtoFromConfig pre .job
          pure (some predeployProto)
      return { name := porterYaml.name, env := porterYaml.env
               build := build, image := image
               services := services, predeploy := predeploy }

/-- Forget the error message of an Except, keeping only success. -/
def exceptOk {ε α : Type} : Except ε α → Option α
  | .ok a => some a
  | .error _ => none

/-- The kind-resolution policy as the specification words it: an
explicit type field is mapped via the exact literal table (web, worker,
job; any other literal fails); otherwise ordered substring rules on the
service name, checked in the fixed order web, then wkr, then job; no
match fails.  Reference definition for the refinement statement. -/
def kindResolutionSpec (name : String) (service : Service) :
    Option ServiceType :=
  if service.type ≠ "" then
    if service.type = "web" then some .web
    else if service.type = "worker" then some .worker
    else if service.type = "job" then some .job
    else none
  else if strContains name "web" then some .web
  else if strContains name "wkr" then some .worker
  else if strContains name "job" then some .job
  else none

/-- The testdata document v2_input_nobuild.yaml as the unmarshalled
PorterYAML structure (cpuCores 0.1 carried exactly as 1/10). -/
def v2InputNoBuild : PorterYAML :=
  { name := "js-test-app"
    services := some
      [ ("example-web",
          { emptyService with
              type := "web"
              run := "node index.js"
              port := 8080
              cpuCores := 1 / 10
              ramMegabytes := 256
              autoscaling := some
                { enabled := true, minInstances := 1, maxInstances := 3
                  memoryThresholdPercent := 60, cpuThresholdPercent := 60 }
              domains := [{ name := "test1.example.com" },
                          { name := "test2.example.com" }]
              healthCheck := some { enabled := true, httpPath := "/healthz" } })
      , ("example-wkr",
          { emptyService with
              type := "worker"
              run := "echo 'work'"
              port := 80
              cpuCores := 1 / 10
              ramMegabytes := 256
              instances := 1 })
      , ("example-job",
          { emptyService with
              type := "job"
              run := "echo 'hello world'"
              allowConcurrent := true
              cpuCores := 1 / 10
              ramMegabytes := 256
              cron := "*/10 * * * *" }) ]
    image := some { repository := "nginx", tag := "latest" }
    build := none
    env := [("PORT", "8080"), ("NODE_ENV", "production")]
    predeploy := some { emptyService with type := "job", run := "ls" } }

/-- The canonical specification the testdata document must produce,
mirroring the expected value result_nobuild of the parse test. -/
def resultNoBuild : PorterApp :=
  { name := "js-test-app"
    env := [("PORT", "8080"), ("NODE_ENV", "production")]
    build := none
    image := some { repository := "nginx", tag := "latest" }
    services :=
      [ ("example-web",
          { run := "node index.js", type := .web, instances := 0
            cpuCores := 1 / 10, ramMegabytes := 256, port := 8080
            config := .webConfig
              { autoscaling := some
                  { enabled := true, minInstances := 1, maxInstances := 3
                    cpuThresholdPercent := 60, memoryThresholdPercent := 60 }
                healthCheck := some { enabled := true, httpPath := "/healthz" }
                domains := [{ name := "test1.example.com" },
                            { name := "test2.example.com" }] } })
      , ("example-wkr",
          { run := "echo 'work'", type := .worker, instances := 1
            cpuCores := 1 / 10, ramMegabytes := 256, port := 80
            config := .workerConfig { autoscaling := none } })
      , ("example-job",
          { run := "echo 'hello world'", type := .job, instances := 0
            cpuCores := 1 / 10, ramMegabytes := 256, port := 0
            config := .jobConfig
              { allowConcurrent := true, cron := "*/10 * * * *" } }) ]
    predeploy := some
      { run := "ls", type := .job, instances := 0, cpuCores := 0
        ramMegabytes := 0, port := 0
        config := .jobConfig { allowConcurrent := false, cron := "" } } }

/-- A document whose only service is a job that also carries every
web-only field (domains, health check, autoscaling).  Used to settle
whether cross-kind fields make canonicalization fail. -/
def crossKindJobDoc : PorterYAML :=
  { name := "cross-kind-app"
    services := some
      [ ("sneaky-job",
          { emptyService with
              type := "job"
              run := "run-batch"
              cron := "* * * * *"
              allowConcurrent := true
              domains := [{ name := "should-not-exist.example.com" }]
              healthCheck := some { enabled := true, httpPath := "/hc" }
              autoscaling := some
                { enabled := true, minInstances := 1, maxInstances := 2
                  cpuThresholdPercent := 50, memoryThresholdPercent := 50 } }) ]
    image := some { repository := "nginx", tag := "latest" }
    build := none
    env := []
    predeploy := none }

/-- Does a proto service's populated config variant match its type? -/
def configMatchesType (s : ProtoService) : Bool :=
  match s.type, s.config with
  | .web, .webConfig _ => true
  | .worker, .workerConfig _ => true
  | .job, .jobConfig _ => true
  | _, _ => false

/-- Is a proto service well-kinded: a specified type whose config
variant matches it exactly? -/
def serviceWellKinded (s : ProtoService) : Bool :=
  (s.type != .unspecified) && configMatchesType s

/-- Are all services of a canonical specification well-kinded,
including the predeploy slot when present? -/
def appServicesWellKinded (p : PorterApp) : Bool :=
  p.services.all (fun ns => serviceWellKinded ns.2) &&
    (match p.predeploy with
     | none => true
     | some s => serviceWellKinded s)

/-- Did an Except computation succeed? -/
def exceptIsOk {ε α : Type} (e : Except ε α) : Bool :=
  match e with
  | .ok _ => true
  | .error _ => false

/-- Did an Except computation fail? -/
def exceptIsErr {ε α : Type} (e : Except ε α) : Bool :=
  match e with
  | .ok _ => false
  | .error _ => true

/-- A document declaring both a build key and an image key. -/
def bothSourcesDoc : PorterYAML :=
  { name := "both-sources-app"
    services := some [("example-web", { emptyService with type := "web" })]
    image := some { repository := "nginx", tag := "latest" }
    build := some
      { context := "./", method := "pack", builder := "heroku/buildpacks"
        buildpacks := [], dockerfile := "" }
    env := []
    predeploy := none }

/-- A document declaring neither a build key nor an image key. -/
def neitherSourceDoc : PorterYAML :=
  { name := "no-source-app"
    services := some [("example-web", { emptyService with type := "web" })]
    image := none
    build := none
    env := []
    predeploy := none }

/-- The canonical specification the no-source document actually
produces: neither the build nor the image variant is set. -/
def neitherSourceApp : PorterApp :=
  { name := "no-source-app"
    env := []
    build := none
    image := none
    services :=
      [ ("example-web",
          { run := "", type := .web, instances := 0
            cpuCores := 0, ramMegabytes := 0, port := 0
            config := .webConfig
              { autoscaling := none, healthCheck := none, domains := [] } }) ]
    predeploy := none }

/-- A document with no top-level name key (the Go zero value is the
empty string) but with a services key. -/
def noNameDoc : PorterYAML :=
  { name := ""
    services := some [("example-web", { emptyService with type := "web" })]
    image := some { repository := "nginx", tag := "latest" }
    build := none
    env := []
    predeploy := none }

/-! ### Wire codec

Modelled from the spec: the binary proto marshalling helpers
(MarshalContractObject and UnmarshalContractObject of the api-contracts
module) and the base64 text wrapping (Go encoding/base64 StdEncoding)
are not among the repository sources provided; the spec describes them
as a compact binary encoding of the canonical specification wrapped in
a reversible ASCII-safe base64 encoding.  The binary form below is a
varint-based byte serialization of every field of the PorterApp message
(no lossy defaulting), and the text wrapping is standard base64 with
padding. -/

/-- Modelled from the spec: protobuf-style varint encoding of a natural
number into bytes, seven bits per byte, high bit set on every byte but
the last. -/
def encVarint (n : Nat) : List Nat :=
  if h : n < 128 then [n]
  else (n % 128 + 128) :: encVarint (n / 128)
termination_by n
decreasing_by
  exact Nat.div_lt_self (by omega) (by omega)

/-- Varint decoder; returns the value and the remaining bytes. -/
def decVarint : List Nat → Option (Nat × List Nat)
  | [] => none
  | b :: rest =>
    if b < 128 then some (b, rest)
    else
      match decVarint rest with
      | some (m, rest1) => some (m * 128 + (b - 128), rest1)
      | none => none

/-- Byte encoding of a boolean. -/
def encBool (b : Bool) : List Nat :=
  [if b then 1 else 0]

/-- Boolean decoder. -/
def decBool : List Nat → Option (Bool × List Nat)
  | 0 :: rest => some (false, rest)
  | 1 :: rest => some (true, rest)
  | _ => none

/-- Sign-tagged varint encoding of an integer. -/
def encInt : Int → List Nat
  | .ofNat n => 0 :: encVarint n
  | .negSucc n => 1 :: encVarint n

/-- Integer decoder. -/
def decInt : List Nat → Option (Int × List Nat)
  | 0 :: rest =>
    match decVarint rest with
    | some (n, rest1) => some (.ofNat n, rest1)
    | none => none
  | 1 :: rest =>
    match decVarint rest with
    | some (n, rest1) => some (.negSucc n, rest1)
    | none => none
  | _ => none

/-- Length-prefixed encoding of a list given an element encoder. -/
def encListWith (f : α → List Nat) (l : List α) : List Nat :=
  encVarint l.length ++ (l.map f).flatten

/-- Decode a known number of elements with a given element decoder. -/
def decCount (f : List Nat → Option (α × List Nat)) :
    Nat → List Nat → Option (List α × List Nat)
  | 0, bs => some ([], bs)
  | k + 1, bs =>
    match f bs with
    | some (x, bs1) =>
      match decCount f k bs1 with
      | some (xs, bs2) => some (x :: xs, bs2)
      | none => none
    | none => none

/-- Decode a length-prefixed list. -/
def decListWith (f : List Nat → Option (α × List Nat))
    (bs : List Nat) : Option (List α × List Nat) :=
  match decVarint bs with
  | some (k, bs1) => decCount f k bs1
  | none => none

/-- Tag-prefixed encoding of an optional value. -/
def encOptionWith (f : α → List Nat) : Option α → List Nat
  | none => [0]
  | some a => 1 :: f a

/-- Optional-value decoder. -/
def decOptionWith (f : List Nat → Option (α × List Nat)) :
    List Nat → Option (Option α × List Nat)
  | 0 :: rest => some (none, rest)
  | 1 :: rest =>
    match f rest with
    | some (a, rest1) => some (some a, rest1)
    | none => none
  | _ => none

/-- Character encoding via the unicode code point. -/
def encChar (c : Char) : List Nat :=
  encVarint c.toNat

/-- Character decoder. -/
def decChar (bs : List Nat) : Option (Char × List Nat) :=
  match decVarint bs with
  | some (n, rest) => some (Char.ofNat n, rest)
  | none => none

/-- Length-prefixed string encoding. -/
def encString (s : String) : List Nat :=
  encListWith encChar s.toList

/-- String decoder. -/
def decString (bs : List Nat) : Option (String × List Nat) :=
  match decListWith decChar bs with
  | some (cs, rest) => some (String.mk cs, rest)
  | none => none

/-- Rational encoding as numerator and denominator. -/
def encRat (q : ℚ) : List Nat :=
  encInt q.num ++ encVarint q.den

/-- Rational decoder. -/
def decRat (bs : List Nat) : Option (ℚ × List Nat) :=
  match decInt bs with
  | some (n, rest) =>
    match decVarint rest with
    | some (d, rest1) => some ((n : ℚ) / (d : ℚ), rest1)
    | none => none
  | none => none

/-- Pair encoding of a string key and a payload. -/
def encStringPairWith (f : α → List Nat) (p : String × α) : List Nat :=
  encString p.1 ++ f p.2

/-- String-keyed pair decoder. -/
def decStringPairWith (f : List Nat → Option (α × List Nat))
    (bs : List Nat) : Option ((String × α) × List Nat) :=
  match decString bs with
  | some (k, rest) =>
    match f rest with
    | some (a, rest1) => some ((k, a), rest1)
    | none => none
  | none => none

/-- Binary form of the proto Autoscaling message. -/
def encAutoscaling (a : ProtoAutoscaling) : List Nat :=
  encBool a.enabled ++ encInt a.minInstances ++ encInt a.maxInstances ++
    encInt a.cpuThresholdPercent ++ encInt a.memoryThresholdPercent

/-- Autoscaling decoder. -/
def decAutoscaling (bs : List Nat) : Option (ProtoAutoscaling × List Nat) :=
  match decBool bs with
  | some (en, r1) =>
    match decInt r1 with
    | some (mi, r2) =>
      match decInt r2 with
      | some (ma, r3) =>
        match decInt r3 with
        | some (ct, r4) =>
          match decInt r4 with
          | some (mt, r5) =>
            some ({ enabled := en, minInstances := mi, maxInstances := ma
                    cpuThresholdPercent := ct
                    memoryThresholdPercent := mt }, r5)
          | none => none
        | none => none
      | none => none
    | none => none
  | none => none

/-- Binary form of the proto HealthCheck message. -/
def encHealthCheckMsg (h : ProtoHealthCheck) : List Nat :=
  encBool h.enabled ++ encString h.httpPath

/-- HealthCheck decoder. -/
def decHealthCheckMsg (bs : List Nat) : Option (ProtoHealthCheck × List Nat) :=
  match decBool bs with
  | some (en, r1) =>
    match decString r1 with
    | some (p, r2) => some ({ enabled := en, httpPath := p }, r2)
    | none => none
  | none => none

/-- Binary form of the proto Domain message. -/
def encDomain (d : ProtoDomain) : List Nat :=
  encString d.name

/-- Domain decoder. -/
def decDomain (bs : List Nat) : Option (ProtoDomain × List Nat) :=
  match decString bs with
  | some (n, rest) => some ({ name := n }, rest)
  | none => none

/-- Binary form of the oneof service config, tag byte then payload. -/
def encServiceConfig : ServiceConfig → List Nat
  | .webConfig c =>
    0 :: (encOptionWith encAutoscaling c.autoscaling ++
      encOptionWith encHealthCheckMsg c.healthCheck ++
      encListWith encDomain c.domains)
  | .workerConfig c => 1 :: encOptionWith encAutoscaling c.autoscaling
  | .jobConfig c => 2 :: (encBool c.allowConcurrent ++ encString c.cron)

/-- Service-config decoder. -/
def decServiceConfig (bs : List Nat) : Option (ServiceConfig × List Nat) :=
  match bs with
  | 0 :: rest =>
    (match decOptionWith decAutoscaling rest with
     | some (a, r1) =>
       match decOptionWith decHealthCheckMsg r1 with
       | some (h, r2) =>
         match decListWith decDomain r2 with
         | some (ds, r3) =>
           some (.webConfig { autoscaling := a, healthCheck := h
                              domains := ds }, r3)
         | none => none
       | none => none
     | none => none)
  | 1 :: rest =>
    (match decOptionWith decAutoscaling rest with
     | some (a, r1) => some (.workerConfig { autoscaling := a }, r1)
     | none => none)
  | 2 :: rest =>
    (match decBool rest with
     | some (ac, r1) =>
       match decString r1 with
       | some (cr, r2) =>
         some (.jobConfig { allowConcurrent := ac, cron := cr }, r2)
       | none => none
     | none => none)
  | _ => none

/-- Byte encoding of the service-type enum. -/
def encServiceType : ServiceType → List Nat
  | .unspecified => [0]
  | .web => [1]
  | .worker => [2]
  | .job => [3]

/-- Service-type decoder. -/
def decServiceType : List Nat → Option (ServiceType × List Nat)
  | 0 :: rest => some (.unspecified, rest)
  | 1 :: rest => some (.web, rest)
  | 2 :: rest => some (.worker, rest)
  | 3 :: rest => some (.job, rest)
  | _ => none

/-- Binary form of the proto Service message. -/
def encService (s : ProtoService) : List Nat :=
  encString s.run ++ encServiceType s.type ++ encInt s.instances ++
    encRat s.cpuCores ++ encInt s.ramMegabytes ++ encInt s.port ++
    encServiceConfig s.config

/-- Service decoder. -/
def decService (bs : List Nat) : Option (ProtoService × List Nat) :=
  match decString bs with
  | some (run, r1) =>
    match decServiceType r1 with
    | some (ty, r2) =>
      match decInt r2 with
      | some (inst, r3) =>
        match decRat r3 with
        | some (cpu, r4) =>
          match decInt r4 with
          | some (ram, r5) =>
            match decInt r5 with
            | some (port, r6) =>
              match decServiceConfig r6 with
              | some (cfg, r7) =>
                some ({ run := run, type := ty, instances := inst
                        cpuCores := cpu, ramMegabytes := ram
                        port := port, config := cfg }, r7)
              | none => none
            | none => none
          | none => none
        | none => none
      | none => none
    | none => none
  | none => none

/-- Binary form of the proto Build message. -/
def encBuildMsg (b : ProtoBuild) : List Nat :=
  encString b.context ++ encString b.method ++ encString b.builder ++
    encListWith encString b.buildpacks ++ encString b.dockerfile

/-- Build decoder. -/
def decBuildMsg (bs : List Nat) : Option (ProtoBuild × List Nat) :=
  match decString bs with
  | some (ctx, r1) =>
    match decString r1 with
    | some (me, r2) =>
      match decString r2 with
      | some (bu, r3) =>
        match decListWith decString r3 with
        | some (bp, r4) =>
          match decString r4 with
          | some (df, r5) =>
            some ({ context := ctx, method := me, builder := bu
                    buildpacks := bp, dockerfile := df }, r5)
          | none => none
        | none => none
      | none => none
    | none => none
  | none => none

/-- Binary form of the proto AppImage message. -/
def encImageMsg (i : AppImage) : List Nat :=
  encString i.repository ++ encString i.tag

/-- AppImage decoder. -/
def decImageMsg (bs : List Nat) : Option (AppImage × List Nat) :=
  match decString bs with
  | some (re, r1) =>
    match decString r1 with
    | some (ta, r2) => some ({ repository := re, tag := ta }, r2)
    | none => none
  | none => none

/-- Pair encoding for the env map entries. -/
def encEnvEntry (p : String × String) : List Nat :=
  encStringPairWith encString p

/-- Env entry decoder. -/
def decEnvEntry (bs : List Nat) : Option ((String × String) × List Nat) :=
  decStringPairWith decString bs

/-- Modelled from the spec: the compact binary form of the whole
PorterApp message, every field encoded with no defaulting. -/
def encPorterApp (p : PorterApp) : List Nat :=
  encString p.name ++ encListWith encEnvEntry p.env ++
    encOptionWith encBuildMsg p.build ++ encOptionWith encImageMsg p.image ++
    encListWith (encStringPairWith encService) p.services ++
    encOptionWith encService p.predeploy

/-- PorterApp decoder. -/
def decPorterApp (bs : List Nat) : Option (PorterApp × List Nat) :=
  match decString bs with
  | some (name, r1) =>
    match decListWith decEnvEntry r1 with
    | some (env, r2) =>
      match decOptionWith decBuildMsg r2 with
      | some (build, r3) =>
        match decOptionWith decImageMsg r3 with
        | some (image, r4) =>
          match decListWith (decStringPairWith decService) r4 with
          | some (services, r5) =>
            match decOptionWith decService r5 with
            | some (pre, r6) =>
              some ({ name := name, env := env, build := build
                      image := image, services := services
                      predeploy := pre }, r6)
            | none => none
          | none => none
        | none => none
      | none => none
    | none => none
  | none => none

/-- The 64-character base64 alphabet. -/
def b64Alphabet : List Char :=
  [ 'A', 'B', 'C', 'D', 'E', 'F', 'G', 'H', 'I', 'J', 'K', 'L', 'M'
  , 'N', 'O', 'P', 'Q', 'R', 'S', 'T', 'U', 'V', 'W', 'X', 'Y', 'Z'
  , 'a', 'b', 'c', 'd', 'e', 'f', 'g', 'h', 'i', 'j', 'k', 'l', 'm'
  , 'n', 'o', 'p', 'q', 'r', 's', 't', 'u', 'v', 'w', 'x', 'y', 'z'
  , '0', '1', '2', '3', '4', '5', '6', '7', '8', '9', '+', '/' ]

/-- The base64 character of a six-bit group. -/
def sextetChar (n : Nat) : Char :=
  b64Alphabet.getD n 'A'

/-- The six-bit value of a base64 character where valid. -/
def sextetOfChar (c : Char) : Option Nat :=
  let i := b64Alphabet.indexOf c
  if i < 64 then some i else none

/-- Modelled from the spec: standard base64 encoding with padding of a
byte list (bytes below 256), three bytes to four characters. -/
def b64encode : List Nat → List Char
  | [] => []
  | [a] => [sextetChar (a / 4), sextetChar (a % 4 * 16), '=', '=']
  | [a, b] =>
    [sextetChar (a / 4), sextetChar (a % 4 * 16 + b / 16),
     sextetChar (b % 16 * 4), '=']
  | a :: b :: c :: rest =>
    sextetChar (a / 4) :: sextetChar (a % 4 * 16 + b / 16) ::
      sextetChar (b % 16 * 4 + c / 64) :: sextetChar (c % 64) ::
        b64encode rest

/-- Base64 decoding with padding, four characters to up to three
bytes; fails on characters outside the alphabet or misplaced padding. -/
def b64decode : List Char → Option (List Nat)
  | [] => some []
  | c1 :: c2 :: c3 :: c4 :: rest =>
    (match sextetOfChar c1, sextetOfChar c2 with
     | some s1, some s2 =>
       if c3 = '=' then
         if c4 = '=' ∧ rest = [] then some [s1 * 4 + s2 / 16] else none
       else
         match sextetOfChar c3 with
         | some s3 =>
           if c4 = '=' then
             if rest = [] then
               some [s1 * 4 + s2 / 16, s2 % 16 * 16 + s3 / 4]
             else none
           else
             match sextetOfChar c4 with
             | some s4 =>
               match b64decode rest with
               | some bs =>
                 some ((s1 * 4 + s2 / 16) :: (s2 % 16 * 16 + s3 / 4) ::
                   (s3 % 4 * 64 + s4) :: bs)
               | none => none
             | none => none
         | none => none
     | _, _ => none)
  | _ => none

/-- The full text-safe wire encoding: binary proto form wrapped in
base64, as the validate handler produces with MarshalContractObject and
base64 StdEncoding. -/
def encodeAppB64 (p : PorterApp) : String :=
  String.mk (b64encode (encPorterApp p))

/-- The full wire decoding: base64 unwrap then binary decode, requiring
the whole payload to be consumed. -/
def decodeAppB64 (s : String) : Option PorterApp :=
  match b64decode s.toList with
  | some bs =>
    match decPorterApp bs with
    | some (p, []) => some p
    | _ => none
  | none => none

/-! ### Client form-state model

The structure of the reconciliation (which services survive, how a
prior override is matched and merged, what happens to the predeploy
slot) is embedded from clientAppFromProto and clientAppToProto of the
dashboard sources.  The per-field service serialization helpers
(serializedServiceFromProto, serializeService, deserializeService,
serviceProto, isPredeployService of lib/porter-apps/services) are not
among the repository sources provided; they are modelled from the
spec's form-model-adapter section: every leaf value is wrapped in a
field-provenance record, a prior override with the same name and the
same resolved kind supplies every field's value unless the field is
source-locked, and source-locked fields always take the freshly
canonicalized value. -/

/-- Modelled from the spec: a form-editable value together with its
provenance; sourceLocked means the declarative document owns it. -/
structure Provenance (α : Type) where
  value : α
  sourceLocked : Bool
deriving DecidableEq

/-- Modelled from the spec: the kind-specific part of a client service,
a strict sum matching the resolved kind, with the client-only predeploy
variant used for the predeploy slot. -/
inductive ClientConfig where
  | web (domains : Provenance (List String))
      (healthCheck : Provenance (Option ProtoHealthCheck))
      (autoscaling : Provenance (Option ProtoAutoscaling))
  | worker (autoscaling : Provenance (Option ProtoAutoscaling))
  | job (cron : Provenance String) (allowConcurrent : Provenance Bool)
  | predeploy
deriving DecidableEq

/-- Modelled from the spec: the client form-state projection of one
service, every leaf wrapped in a provenance record. -/
structure ClientService where
  name : Provenance String
  run : Provenance String
  instances : Provenance Int
  cpuCores : Provenance ℚ
  ramMegabytes : Provenance Int
  port : Provenance Int
  config : ClientConfig
deriving DecidableEq

/-- Client build form state (buildValidator): a pack or docker variant. -/
inductive BuildOptions where
  | pack (context : String) (buildpacks : List String) (builder : String)
  | docker (context : String) (dockerfile : String)
deriving DecidableEq

/-- Client source form state (sourceValidator): a github or
docker-registry variant. -/
inductive SourceOptions where
  | github (gitRepoId : Int) (gitBranch gitRepoName porterYamlPath : String)
  | dockerRegistry (repository tag : String)
deriving DecidableEq

/-- The client app model (clientAppValidator): name, services with the
predeploy slot kept separately, env, and build settings. -/
structure ClientPorterApp where
  name : String
  services : List ClientService
  predeploy : Option ClientService
  env : List (String × String)
  build : BuildOptions
deriving DecidableEq

/-- The app form data (porterAppFormValidator): app plus source. -/
structure PorterAppFormData where
  app : ClientPorterApp
  source : SourceOptions
deriving DecidableEq

/-- Modelled from the spec: the client config freshly read from a proto
service config; list and optional sub-structures stay source-editable
until the document locks them, so the fresh wrapping is unlocked. -/
def clientConfigFromProto (isPredeploy : Bool) (c : ServiceConfig) :
    ClientConfig :=
  if isPredeploy then .predeploy
  else
    match c with
    | .webConfig w =>
      .web ⟨w.domains.map (fun d => d.name), false⟩
        ⟨w.healthCheck, false⟩ ⟨w.autoscaling, false⟩
    | .workerConfig w => .worker ⟨w.autoscaling, false⟩
    | .jobConfig j => .job ⟨j.cron, false⟩ ⟨j.allowConcurrent, false⟩

/-- Modelled from the spec: serializedServiceFromProto composed with
deserializeService on a fresh service; the name is the service's
identity and is owned by the source (locked), the remaining leaves are
editable. -/
def serviceFromProto (name : String) (isPredeploy : Bool)
    (p : ProtoService) : ClientService :=
  { name := ⟨name, true⟩
    run := ⟨p.run, false⟩
    instances := ⟨p.instances, false⟩
    cpuCores := ⟨p.cpuCores, false⟩
    ramMegabytes := ⟨p.ramMegabytes, false⟩
    port := ⟨p.port, false⟩
    config := clientConfigFromProto isPredeploy p.config }

/-- Modelled from the spec: merge one field of a fresh serialization
with a prior override; a source-locked field always takes the fresh
value, an editable field keeps the override's value. -/
def mergeProv (fresh prior : Provenance α) : Provenance α :=
  if fresh.sourceLocked then fresh
  else ⟨prior.value, fresh.sourceLocked⟩

/-- Do two client configs carry the same resolved kind? -/
def sameKind : ClientConfig → ClientConfig → Bool
  | .web .., .web .. => true
  | .worker .., .worker .. => true
  | .job .., .job .. => true
  | .predeploy, .predeploy => true
  | _, _ => false

/-- Modelled from the spec: merge the kind-specific config of a fresh
serialization with a prior override of the same kind, field by field. -/
def mergeConfig (fresh prior : ClientConfig) : ClientConfig :=
  match fresh, prior with
  | .web d h a, .web d0 h0 a0 =>
    .web (mergeProv d d0) (mergeProv h h0) (mergeProv a a0)
  | .worker a, .worker a0 => .worker (mergeProv a a0)
  | .job c ac, .job c0 ac0 => .job (mergeProv c c0) (mergeProv ac ac0)
  | .predeploy, .predeploy => .predeploy
  | f, _ => f

/-- Modelled from the spec: deserializeService with an override; a
prior override of the same resolved kind supplies every editable
field's value, a kind mismatch discards the override. -/
def mergeService (fresh prior : ClientService) : ClientService :=
  if sameKind fresh.config prior.config then
    { name := mergeProv fresh.name prior.name
      run := mergeProv fresh.run prior.run
      instances := mergeProv fresh.instances prior.instances
      cpuCores := mergeProv fresh.cpuCores prior.cpuCores
      ramMegabytes := mergeProv fresh.ramMegabytes prior.ramMegabytes
      port := mergeProv fresh.port prior.port
      config := mergeConfig fresh.config prior.config }
  else fresh

/-- Embeds clientBuildFromProto: accept only the pack and docker
methods, otherwise no client build settings. -/
def clientBuildFromProto : Option ProtoBuild → Option BuildOptions
  | none => none
  | some b =>
    if b.method = "pack" then some (.pack b.context b.buildpacks b.builder)
    else if b.method = "docker" then some (.docker b.context b.dockerfile)
    else none

/-- Embeds clientAppFromProto: rebuild the client model from a
canonical specification and the prior overrides.  Each proto service is
freshly serialized and merged with the prior override of the same name
when one exists; services absent from the proto are dropped; the
predeploy slot is rebuilt only when both a prior predeploy override and
a proto predeploy exist; name, env and build always come from the
proto, with the default pack settings when the proto build is absent or
has an unknown method.  reconcileEntry is the per-service step of
clientAppFromProto: serialize the proto service afresh and merge it
with the prior override of the same name when one exists. -/
def reconcileEntry (overrides : Option ClientPorterApp)
    (ns : String × ProtoService) : ClientService :=
  let fresh := serviceFromProto ns.1 false ns.2
  match overrides with
  | none => fresh
  | some m =>
    match m.services.find? (fun c => c.name.value == ns.1) with
    | some o => mergeService fresh o
    | none => fresh

/-- Embeds clientAppFromProto (continued): the full reconciliation. -/
def clientAppFromProto (proto : PorterApp) (overrides : Option ClientPorterApp) :
    ClientPorterApp :=
  { name := proto.name
    services := proto.services.map (reconcileEntry overrides)
    predeploy :=
      match overrides with
      | none => none
      | some m =>
        match m.predeploy with
        | none => none
        | some o =>
          match proto.predeploy with
          | some p => some (mergeService (serviceFromProto "pre-deploy" true p) o)
          | none => none
    env := proto.env
    build := (clientBuildFromProto proto.build).getD (.pack "./" [] "") }

/-- Embeds isPredeployService: a client service is the predeploy slot
exactly when its config carries the predeploy variant. -/
def isPredeployService (s : ClientService) : Bool :=
  sameKind s.config .predeploy

/-- Modelled from the spec: serviceProto composed with serializeService,
unwrapping every provenance record to its bare value; the predeploy
variant maps to a job config with no cron or concurrency settings. -/
def clientServiceToProto (s : ClientService) : ProtoService :=
  let cfg :=
    match s.config with
    | .web d h a =>
      ServiceConfig.webConfig
        { autoscaling := a.value, healthCheck := h.value
          domains := d.value.map (fun n => { name := n }) }
    | .worker a => .workerConfig { autoscaling := a.value }
    | .job c ac => .jobConfig { allowConcurrent := ac.value, cron := c.value }
    | .predeploy => .jobConfig { allowConcurrent := false, cron := "" }
  let ty :=
    match s.config with
    | .web .. => ServiceType.web
    | .worker .. => .worker
    | .job .. => .job
    | .predeploy => .job
  { run := s.run.value, type := ty, instances := s.instances.value
    cpuCores := s.cpuCores.value, ramMegabytes := s.ramMegabytes.value
    port := s.port.value, config := cfg }

/-- Embeds clientBuildToProto: write back the selected build variant. -/
def clientBuildToProto : BuildOptions → ProtoBuild
  | .pack context buildpacks builder =>
    { context := context, method := "pack", builder := builder
      buildpacks := buildpacks, dockerfile := "" }
  | .docker context dockerfile =>
    { context := context, method := "docker", builder := ""
      buildpacks := [], dockerfile := dockerfile }

/-- Embeds clientAppToProto: write the form state back to a canonical
specification; the github source carries the build settings and the
predeploy slot, the docker-registry source carries the image and
neither build nor predeploy. -/
def clientAppToProto (data : PorterAppFormData) : PorterApp :=
  let services :=
    (data.app.services.filter (fun s => ¬ isPredeployService s)).map
      (fun s => (s.name.value, clientServiceToProto s))
  let pre := data.app.services.find? isPredeployService
  match data.source with
  | .github .. =>
    { name := data.app.name
      services := services
      env := data.app.env
      build := some (clientBuildToProto data.app.build)
      image := none
      predeploy := pre.map clientServiceToProto }
  | .dockerRegistry repository tag =>
    { name := data.app.name
      services := services
      env := data.app.env
      build := none
      image := some { repository := repository, tag := tag }
      predeploy := none }

/-- The canonical specification the cross-kind document actually
produces: the job service keeps only its job config and the web-only
fields are gone. -/
def crossKindJobApp : PorterApp :=
  { name := "cross-kind-app"
    env := []
    build := none
    image := some { repository := "nginx", tag := "latest" }
    services :=
      [ ("sneaky-job",
          { run := "run-batch", type := .job, instances := 0
            cpuCores := 0, ramMegabytes := 0, port := 0
            config := .jobConfig
              { allowConcurrent := true, cron := "* * * * *" } }) ]
    predeploy := none }

/-- The canonical specification the both-sources document actually
produces: both the build and the image variant are set. -/
def bothSourcesApp : PorterApp :=
  { name := "both-sources-app"
    env := []
    build := some
      { context := "./", method := "pack", builder := "heroku/buildpacks"
        buildpacks := [], dockerfile := "" }
    image := some { repository := "nginx", tag := "latest" }
    services :=
      [ ("example-web",
          { run := "", type := .web, instances := 0
            cpuCores := 0, ramMegabytes := 0, port := 0
            config := .webConfig
              { autoscaling := none, healthCheck := none, domains := [] } }) ]
    predeploy := none }

/-- The canonical specification the nameless document actually
produces: an empty name and everything else as declared. -/
def noNameApp : PorterApp :=
  { name := ""
    env := []
    build := none
    image := some { repository := "nginx", tag := "latest" }
    services :=
      [ ("example-web",
          { run := "", type := .web, instances := 0
            cpuCores := 0, ramMegabytes := 0, port := 0
            config := .webConfig
              { autoscaling := none, healthCheck := none, domains := [] } }) ]
    predeploy := none }

/-- A document with no services key at all (nil map). -/
def noServicesDoc : PorterYAML :=
  { name := "app-without-services"
    services := none
    image := some { repository := "nginx", tag := "latest" }
    build := none
    env := []
    predeploy := none }

/-- A user-edited override for the example-web service: same name and
kind as in the canonical specification, edited editable fields. -/
def sampleWebOverride : ClientService :=
  { name := ⟨"example-web", true⟩
    run := ⟨"node server.js", false⟩
    instances := ⟨2, false⟩
    cpuCores := ⟨1 / 2, false⟩
    ramMegabytes := ⟨512, false⟩
    port := ⟨8080, false⟩
    config := .web ⟨["edited.example.com"], false⟩ ⟨none, false⟩
      ⟨none, false⟩ }

/-- A stale override for a worker the source no longer declares. -/
def staleWorkerOverride : ClientService :=
  { name := ⟨"old-api", true⟩
    run := ⟨"python app.py", false⟩
    instances := ⟨1, false⟩
    cpuCores := ⟨1, false⟩
    ramMegabytes := ⟨128, false⟩
    port := ⟨9000, false⟩
    config := .worker ⟨none, false⟩ }

/-- A prior predeploy override. -/
def samplePredeployOverride : ClientService :=
  { name := ⟨"pre-deploy", true⟩
    run := ⟨"ls -la", false⟩
    instances := ⟨0, false⟩
    cpuCores := ⟨0, false⟩
    ramMegabytes := ⟨0, false⟩
    port := ⟨0, false⟩
    config := .predeploy }

/-- A prior client model carrying an edited service, a stale service
and a predeploy override. -/
def samplePriorModel : ClientPorterApp :=
  { name := "js-test-app"
    services := [sampleWebOverride, staleWorkerOverride]
    predeploy := some samplePredeployOverride
    env := [("PORT", "8080")]
    build := .docker "./" "./Dockerfile" }

/-- No service of the client model carries the given name. -/
def nameAbsent (m : ClientPorterApp) (nm : String) : Bool :=
  m.services.all (fun c => c.name.value != nm)

/-- A sample form input with a github source and a predeploy service,
for evaluating the write-back direction. -/
def sampleGithubForm : PorterAppFormData :=
  { app :=
      { name := "js-test-app"
        services := [sampleWebOverride, samplePredeployOverride]
        predeploy := none
        env := [("PORT", "8080")]
        build := .pack "./" ["heroku/nodejs"] "heroku/builder" }
    source := .github 1 "main" "org/repo" "./porter.yaml" }

/-! ### Theorems -/

/-- C1: per-service kind resolution follows the strict priority order:
an explicit type field is mapped via the exact literal table (web,
worker, job; any other literal errors); otherwise the kind is inferred
from the service name by ordered substring rules checked web, then wkr,
then job, so a service named web-job with no explicit type resolves to
Web; no match is an error. -/
theorem kind_resolution_priority :
    (∀ (name : String) (svc : Service),
      exceptOk (protoEnumFromType name svc) = kindResolutionSpec name svc) ∧
    protoEnumFromType "web-job" emptyService = .ok .web := by
  constructor
  · intro name svc
    simp only [protoEnumFromType, kindResolutionSpec]
    split_ifs <;> rfl
  · rfl

/-- C3: canonicalizing the js-test-app document yields exactly the
three services keyed by name, each populated only with its own kind's
config variant, and a predeploy slot of kind Job with no cron or
concurrency fields set. -/
theorem parse_concrete_scenario :
    AppProtoFromYaml (some v2InputNoBuild) = .ok resultNoBuild := by
  rfl

theorem exceptBind_ok {ε α β : Type} (a : α) (f : α → Except ε β) :
    (Except.ok a >>= f : Except ε β) = f a := rfl

theorem exceptBind_err {ε α β : Type} (e : ε) (f : α → Except ε β) :
    (Except.error e >>= f : Except ε β) = .error e := rfl

theorem exceptPure_bind {ε α β : Type} (a : α) (f : α → Except ε β) :
    (pure a >>= f : Except ε β) = f a := rfl

theorem exceptPure_eq_ok {ε α : Type} (a : α) :
    (pure a : Except ε α) = .ok a := rfl

/-- C4 counterexample: a job service carrying every web-only field
(domains, health check, autoscaling) canonicalizes successfully — the
cross-kind fields are silently dropped instead of failing with a
semantic error as the claim states. -/
theorem cross_kind_job_succeeds :
    AppProtoFromYaml (some crossKindJobDoc) = .ok crossKindJobApp := by
  rfl

/-- C4 amended: after kind resolution the canonicalizer populates only
the config variant matching the resolved kind, and any source field
belonging to a different kind is silently dropped — the output is
unchanged when those fields are zeroed — rather than being an error. -/
theorem cross_kind_fields_silently_dropped (svc : Service) :
    (serviceProtoFromConfig svc .job =
        serviceProtoFromConfig
          { svc with domains := [], healthCheck := none
                     autoscaling := none } .job ∧
      exceptIsOk (serviceProtoFromConfig svc .job) = true ∧
      (exceptOk (serviceProtoFromConfig svc .job)).all
        serviceWellKinded = true) ∧
    (serviceProtoFromConfig svc .web =
        serviceProtoFromConfig
          { svc with cron := "", allowConcurrent := false } .web ∧
      exceptIsOk (serviceProtoFromConfig svc .web) = true ∧
      (exceptOk (serviceProtoFromConfig svc .web)).all
        serviceWellKinded = true) ∧
    (serviceProtoFromConfig svc .worker =
        serviceProtoFromConfig
          { svc with domains := [], healthCheck := none
                     cron := "", allowConcurrent := false } .worker ∧
      exceptIsOk (serviceProtoFromConfig svc .worker) = true ∧
      (exceptOk (serviceProtoFromConfig svc .worker)).all
        serviceWellKinded = true) := by
  exact ⟨⟨rfl, rfl, rfl⟩, ⟨rfl, rfl, rfl⟩, ⟨rfl, rfl, rfl⟩⟩

/-- C5 counterexample: a document declaring both a build key and an
image key canonicalizes successfully into a specification carrying both
variants — not the semantic error the claim states. -/
theorem both_sources_accepted :
    AppProtoFromYaml (some bothSourcesDoc) = .ok bothSourcesApp ∧
    bothSourcesApp.build.isSome = true ∧
    bothSourcesApp.image.isSome = true := by
  exact ⟨rfl, rfl, rfl⟩

/-- C5 amended: the build key selects the Build variant and the image
key selects the Image variant, but both or neither present is accepted:
the output's variants simply mirror which keys the document has, a
document with neither key canonicalizes successfully to a specification
with neither variant, and no ambiguity error exists. -/
theorem build_image_mirrors_keys :
    (∀ (y : PorterYAML) (app : PorterApp),
      AppProtoFromYaml (some y) = .ok app →
        app.build.isSome = y.build.isSome ∧
        app.image.isSome = y.image.isSome) ∧
    AppProtoFromYaml (some neitherSourceDoc) = .ok neitherSourceApp ∧
    neitherSourceApp.build = none ∧ neitherSourceApp.image = none := by
  refine ⟨?_, rfl, rfl, rfl⟩
  intro y app h
  simp only [AppProtoFromYaml] at h
  cases hs : y.services with
  | none =>
    rw [hs] at h
    exact absurd h (by simp)
  | some entries =>
    rw [hs] at h
    dsimp only at h
    cases hm : mapServices entries with
    | error e =>
      rw [hm, exceptBind_err] at h
      exact absurd h (by simp)
    | ok svcs =>
      rw [hm, exceptBind_ok] at h
      cases hp : y.predeploy with
      | none =>
        rw [hp] at h
        dsimp only at h
        rw [exceptPure_bind, exceptPure_eq_ok] at h
        injection h with h
        rw [← h]
        simp [Option.isSome_map]
      | some pre =>
        rw [hp] at h
        dsimp only at h
        cases hq : serviceProtoFromConfig pre .job with
        | error e =>
          rw [hq, exceptBind_err] at h
          exact absurd h (by simp)
        | ok preProto =>
          rw [hq, exceptBind_ok, exceptPure_bind, exceptPure_eq_ok] at h
          injection h with h
          rw [← h]
          simp [Option.isSome_map]

/-- C5 amended witness at the both-sources and the no-source
documents. -/
theorem build_image_mirrors_keys_witness :
    (bothSourcesApp.build.isSome = bothSourcesDoc.build.isSome ∧
      bothSourcesApp.image.isSome = bothSourcesDoc.image.isSome) ∧
    (neitherSourceApp.build.isSome = neitherSourceDoc.build.isSome ∧
      neitherSourceApp.image.isSome = neitherSourceDoc.image.isSome) :=
  ⟨build_image_mirrors_keys.1 bothSourcesDoc bothSourcesApp rfl,
   build_image_mirrors_keys.1 neitherSourceDoc neitherSourceApp rfl⟩

/-- C6 counterexample: a document with no top-level name (the zero
value, an empty string) and a services key canonicalizes successfully —
a missing name is not the error the claim states. -/
theorem missing_name_accepted :
    AppProtoFromYaml (some noNameDoc) = .ok noNameApp ∧
    noNameApp.name = "" := by
  exact ⟨rfl, rfl⟩

/-- C6 amended: parsing fails on malformed input (nil or unparseable
bytes) and whenever the services key is absent, but a missing name is
accepted with the empty string rather than being an error. -/
theorem services_required_name_optional :
    (∀ y : PorterYAML, y.services = none →
      exceptIsErr (AppProtoFromYaml (some y)) = true) ∧
    exceptIsErr (AppProtoFromYaml none) = true ∧
    exceptIsOk (AppProtoFromYaml (some noNameDoc)) = true := by
  refine ⟨?_, rfl, rfl⟩
  intro y hy
  simp only [AppProtoFromYaml]
  rw [hy]
  rfl

/-- C6 amended witness at a concrete document lacking services. -/
theorem services_required_name_optional_witness :
    exceptIsErr (AppProtoFromYaml (some noServicesDoc)) = true :=
  services_required_name_optional.1 noServicesDoc rfl

theorem mergeProv_self {α : Type} (f : Provenance α) : mergeProv f f = f := by
  rcases f with ⟨v, l⟩
  cases l <;> simp [mergeProv]

theorem mergeProv_idem {α : Type} (f p : Provenance α) :
    mergeProv f (mergeProv f p) = mergeProv f p := by
  rcases f with ⟨v, l⟩
  cases l <;> simp [mergeProv]

theorem sameKind_refl (c : ClientConfig) : sameKind c c = true := by
  cases c <;> rfl

theorem mergeConfig_self (c : ClientConfig) : mergeConfig c c = c := by
  cases c <;> simp [mergeConfig, mergeProv_self]

theorem sameKind_mergeConfig (f p : ClientConfig) :
    sameKind f (mergeConfig f p) = true := by
  cases f <;> cases p <;> simp [mergeConfig, sameKind]

theorem mergeConfig_idem (f p : ClientConfig) :
    mergeConfig f (mergeConfig f p) = mergeConfig f p := by
  cases f <;> cases p <;>
    simp [mergeConfig, mergeProv_idem, mergeProv_self]

theorem mergeService_self (f : ClientService) : mergeService f f = f := by
  simp [mergeService, sameKind_refl, mergeProv_self, mergeConfig_self]

theorem mergeService_idem (f p : ClientService) :
    mergeService f (mergeService f p) = mergeService f p := by
  by_cases h : sameKind f.config p.config
  · have h1 : mergeService f p =
        { name := mergeProv f.name p.name
          run := mergeProv f.run p.run
          instances := mergeProv f.instances p.instances
          cpuCores := mergeProv f.cpuCores p.cpuCores
          ramMegabytes := mergeProv f.ramMegabytes p.ramMegabytes
          port := mergeProv f.port p.port
          config := mergeConfig f.config p.config } := by
      simp [mergeService, h]
    rw [h1]
    simp [mergeService, sameKind_mergeConfig, mergeProv_idem, mergeConfig_idem]
  · have h1 : mergeService f p = f := by simp [mergeService, h]
    rw [h1, mergeService_self]

theorem reconcileEntry_name (ov : Option ClientPorterApp)
    (ns : String × ProtoService) :
    (reconcileEntry ov ns).name = ⟨ns.1, true⟩ := by
  rcases ov with _ | m
  · rfl
  · simp only [reconcileEntry]
    cases m.services.find? (fun c => c.name.value == ns.1) with
    | none => rfl
    | some o =>
      simp only [mergeService]
      split <;> rfl

theorem find?_map_reconcile (ov : Option ClientPorterApp)
    (l : List (String × ProtoService))
    (hnd : (l.map Prod.fst).Nodup)
    (ns : String × ProtoService) (hmem : ns ∈ l) :
    (l.map (reconcileEntry ov)).find?
      (fun c => c.name.value == ns.1) = some (reconcileEntry ov ns) := by
  induction l with
  | nil => cases hmem
  | cons x xs ih =>
    rw [List.map_cons]
    by_cases hx : x.1 = ns.1
    · have hxe : ns = x := by
        rcases List.mem_cons.mp hmem with h | h
        · exact h
        · exfalso
          have : ns.1 ∈ xs.map Prod.fst := List.mem_map.mpr ⟨ns, h, rfl⟩
          rw [← hx] at this
          exact (List.nodup_cons.mp hnd).1 this
      subst hxe
      apply List.find?_cons_of_pos
      rw [reconcileEntry_name]
      exact beq_self_eq_true ns.1
    · rw [List.find?_cons_of_neg]
      · exact ih (List.nodup_cons.mp hnd).2
          (by
            rcases List.mem_cons.mp hmem with h | h
            · exact absurd (congrArg Prod.fst h.symm) hx
            · exact h)
      · rw [reconcileEntry_name]
        simp only [beq_iff_eq]
        exact hx

/-- C7: reconciliation is idempotent: applying clientAppFromProto with
an unchanged canonical specification to its own output yields the same
client model, for every prior model (service names of the canonical
specification being unique, as map keys are). -/
theorem reconciliation_idempotent (proto : PorterApp) (m : ClientPorterApp)
    (hnd : (proto.services.map Prod.fst).Nodup) :
    clientAppFromProto proto (some (clientAppFromProto proto (some m))) =
      clientAppFromProto proto (some m) := by
  have hsvc : ∀ ns ∈ proto.services,
      reconcileEntry (some (clientAppFromProto proto (some m))) ns =
        reconcileEntry (some m) ns := by
    intro ns hns
    have hfind :
        ((clientAppFromProto proto (some m)).services).find?
          (fun c => c.name.value == ns.1) = some (reconcileEntry (some m) ns) := by
      show (proto.services.map (reconcileEntry (some m))).find?
          (fun c => c.name.value == ns.1) = some (reconcileEntry (some m) ns)
      exact find?_map_reconcile (some m) proto.services hnd ns hns
    show (match ((clientAppFromProto proto (some m)).services).find?
        (fun c => c.name.value == ns.1) with
      | some o => mergeService (serviceFromProto ns.1 false ns.2) o
      | none => serviceFromProto ns.1 false ns.2) = reconcileEntry (some m) ns
    rw [hfind]
    show mergeService (serviceFromProto ns.1 false ns.2)
        (reconcileEntry (some m) ns) = reconcileEntry (some m) ns
    simp only [reconcileEntry]
    cases m.services.find? (fun c => c.name.value == ns.1) with
    | none => exact mergeService_self _
    | some o => exact mergeService_idem _ o
  have hpre :
      (match (clientAppFromProto proto (some m)).predeploy with
        | none => (none : Option ClientService)
        | some o =>
          match proto.predeploy with
          | some p => some (mergeService (serviceFromProto "pre-deploy" true p) o)
          | none => none) =
      (match m.predeploy with
        | none => (none : Option ClientService)
        | some o =>
          match proto.predeploy with
          | some p => some (mergeService (serviceFromProto "pre-deploy" true p) o)
          | none => none) := by
    show (match (match m.predeploy with
        | none => (none : Option ClientService)
        | some o =>
          match proto.predeploy with
          | some p => some (mergeService (serviceFromProto "pre-deploy" true p) o)
          | none => none) with
      | none => (none : Option ClientService)
      | some o =>
        match proto.predeploy with
        | some p => some (mergeService (serviceFromProto "pre-deploy" true p) o)
        | none => none) = _
    cases m.predeploy with
    | none => rfl
    | some o =>
      cases proto.predeploy with
      | none => rfl
      | some p =>
        show (some (mergeService (serviceFromProto "pre-deploy" true p)
          (mergeService (serviceFromProto "pre-deploy" true p) o)) : Option ClientService) = _
        rw [mergeService_idem]
  simp only [clientAppFromProto, ClientPorterApp.mk.injEq]
  refine ⟨trivial, List.map_congr_left hsvc, ?_, trivial, trivial⟩
  exact hpre

/-- C7 witness: reconciling the js-test-app specification twice against
a concrete prior model changes nothing the second time. -/
theorem reconciliation_idempotent_witness :
    clientAppFromProto resultNoBuild
        (some (clientAppFromProto resultNoBuild (some samplePriorModel))) =
      clientAppFromProto resultNoBuild (some samplePriorModel) :=
  reconciliation_idempotent resultNoBuild samplePriorModel (by decide)

/-- C8: a service present in the prior overrides but absent from the
new canonical specification is entirely absent from the reconciled
client model: every reconciled service carries a name declared by the
canonical specification. -/
theorem stale_overrides_dropped (proto : PorterApp) (m : ClientPorterApp)
    (s : ClientService) (hs : s ∈ m.services)
    (habsent : s.name.value ∉ proto.services.map Prod.fst) :
    nameAbsent (clientAppFromProto proto (some m)) s.name.value = true := by
  rw [nameAbsent, List.all_eq_true]
  intro c hc
  have hc2 : c ∈ proto.services.map (reconcileEntry (some m)) := hc
  obtain ⟨ns, hns, hceq⟩ := List.mem_map.mp hc2
  have : c.name.value = ns.1 := by
    rw [← hceq, reconcileEntry_name]
  simp only [bne_iff_ne, ne_eq, this]
  intro heq
  exact habsent (heq ▸ List.mem_map.mpr ⟨ns, hns, rfl⟩)

/-- C8 witness: the stale old-api override is not resurrected when
reconciling against the js-test-app specification. -/
theorem stale_overrides_dropped_witness :
    nameAbsent (clientAppFromProto resultNoBuild (some samplePriorModel))
      staleWorkerOverride.name.value = true :=
  stale_overrides_dropped resultNoBuild samplePriorModel staleWorkerOverride
    (by decide) (by decide)

/-- C10: converting a client form model back to a canonical
specification never sets both the image and the build variant: a github
source yields a build and no image, and a docker-registry source yields
an image, no build and no predeploy slot, even when the form contains a
predeploy service. -/
theorem source_variant_exclusive (d : PorterAppFormData) :
    (match d.source with
      | .github .. =>
        (clientAppToProto d).build.isSome = true ∧
        (clientAppToProto d).image = none
      | .dockerRegistry .. =>
        (clientAppToProto d).image.isSome = true ∧
        (clientAppToProto d).build = none ∧
        (clientAppToProto d).predeploy = none) := by
  cases hsrc : d.source with
  | github a b c e => simp [clientAppToProto, hsrc]
  | dockerRegistry r t => simp [clientAppToProto, hsrc]

theorem serviceProto_wellKinded (svc : Service) (k : ServiceType)
    (out : ProtoService) (h : serviceProtoFromConfig svc k = .ok out) :
    serviceWellKinded out = true := by
  cases k with
  | unspecified => exact absurd h (by simp [serviceProtoFromConfig])
  | web =>
    simp only [serviceProtoFromConfig, Except.ok.injEq] at h
    rw [← h]
    rfl
  | worker =>
    simp only [serviceProtoFromConfig, Except.ok.injEq] at h
    rw [← h]
    rfl
  | job =>
    simp only [serviceProtoFromConfig, Except.ok.injEq] at h
    rw [← h]
    rfl

theorem serviceEntry_wellKinded (e : String × Service)
    (x : String × ProtoService) (h : serviceEntryToProto e = .ok x) :
    serviceWellKinded x.2 = true := by
  simp only [serviceEntryToProto] at h
  cases hk : protoEnumFromType e.1 e.2 with
  | error err =>
    rw [hk, exceptBind_err] at h
    exact absurd h (by simp)
  | ok k =>
    rw [hk, exceptBind_ok] at h
    cases hs : serviceProtoFromConfig e.2 k with
    | error err =>
      rw [hs, exceptBind_err] at h
      exact absurd h (by simp)
    | ok sp =>
      rw [hs, exceptBind_ok, exceptPure_eq_ok] at h
      injection h with h
      rw [← h]
      exact serviceProto_wellKinded e.2 k sp hs

theorem mapServices_mem (l : List (String × Service))
    (out : List (String × ProtoService)) (h : mapServices l = .ok out) :
    ∀ x ∈ out, ∃ e, serviceEntryToProto e = .ok x := by
  induction l generalizing out with
  | nil =>
    simp only [mapServices, Except.ok.injEq] at h
    rw [← h]
    intro x hx
    cases hx
  | cons e es ih =>
    simp only [mapServices] at h
    cases hf : serviceEntryToProto e with
    | error err =>
      rw [hf, exceptBind_err] at h
      exact absurd h (by simp)
    | ok x0 =>
      rw [hf, exceptBind_ok] at h
      cases hm : mapServices es with
      | error err =>
        rw [hm, exceptBind_err] at h
        exact absurd h (by simp)
      | ok xs =>
        rw [hm, exceptBind_ok, exceptPure_eq_ok] at h
        injection h with h
        rw [← h]
        intro x hx
        rcases List.mem_cons.mp hx with hx | hx
        · exact ⟨e, hx ▸ hf⟩
        · exact ih xs hm x hx

/-- C9: every service produced by successful canonicalization is
well-kinded: its populated config variant matches its resolved type
exactly and the type is never unspecified, for the named services and
the predeploy slot alike. -/
theorem canonicalization_kind_invariant (y : PorterYAML) (app : PorterApp)
    (h : AppProtoFromYaml (some y) = .ok app) :
    appServicesWellKinded app = true := by
  simp only [AppProtoFromYaml] at h
  cases hs : y.services with
  | none =>
    rw [hs] at h
    exact absurd h (by simp)
  | some entries =>
    rw [hs] at h
    dsimp only at h
    cases hm : mapServices entries with
    | error e =>
      rw [hm, exceptBind_err] at h
      exact absurd h (by simp)
    | ok svcs =>
      rw [hm, exceptBind_ok] at h
      have hall : svcs.all (fun ns => serviceWellKinded ns.2) = true := by
        rw [List.all_eq_true]
        intro x hx
        obtain ⟨e, he⟩ := mapServices_mem entries svcs hm x hx
        exact serviceEntry_wellKinded e x he
      cases hp : y.predeploy with
      | none =>
        rw [hp] at h
        dsimp only at h
        rw [exceptPure_bind, exceptPure_eq_ok] at h
        injection h with h
        rw [← h]
        simp only [appServicesWellKinded]
        rw [hall]
        rfl
      | some pre =>
        rw [hp] at h
        dsimp only at h
        cases hq : serviceProtoFromConfig pre .job with
        | error e =>
          rw [hq, exceptBind_err] at h
          exact absurd h (by simp)
        | ok preProto =>
          rw [hq, exceptBind_ok, exceptPure_bind, exceptPure_eq_ok] at h
          injection h with h
          rw [← h]
          simp only [appServicesWellKinded]
          rw [hall, serviceProto_wellKinded pre .job preProto hq]
          rfl

/-- C9 witness at the cross-kind document, which canonicalizes to a
well-kinded specification. -/
theorem canonicalization_kind_invariant_witness :
    appServicesWellKinded crossKindJobApp = true :=
  canonicalization_kind_invariant crossKindJobDoc crossKindJobApp rfl

theorem decVarint_enc (n : Nat) :
    ∀ rest, decVarint (encVarint n ++ rest) = some (n, rest) := by
  induction n using Nat.strong_induction_on with
  | _ n ih =>
    intro rest
    rw [encVarint]
    by_cases h : n < 128
    · rw [dif_pos h]
      simp [decVarint, h]
    · rw [dif_neg h, List.cons_append]
      simp only [decVarint]
      rw [if_neg (by omega)]
      rw [ih (n / 128) (by omega) rest]
      have harith : n / 128 * 128 + (n % 128 + 128 - 128) = n := by omega
      simp only [harith]

theorem decBool_enc (b : Bool) (rest : List Nat) :
    decBool (encBool b ++ rest) = some (b, rest) := by
  cases b <;> rfl

theorem decInt_enc (i : Int) (rest : List Nat) :
    decInt (encInt i ++ rest) = some (i, rest) := by
  cases i with
  | ofNat n =>
    show decInt (0 :: (encVarint n ++ rest)) = _
    simp only [decInt, decVarint_enc]
  | negSucc n =>
    show decInt (1 :: (encVarint n ++ rest)) = _
    simp only [decInt, decVarint_enc]

theorem decChar_enc (c : Char) (rest : List Nat) :
    decChar (encChar c ++ rest) = some (c, rest) := by
  simp only [decChar, encChar, decVarint_enc, Char.ofNat_toNat]

theorem decCount_enc {α : Type} (f : α → List Nat)
    (g : List Nat → Option (α × List Nat))
    (hfg : ∀ x rest, g (f x ++ rest) = some (x, rest)) :
    ∀ (l : List α) (rest : List Nat),
      decCount g l.length ((l.map f).flatten ++ rest) = some (l, rest) := by
  intro l
  induction l with
  | nil =>
    intro rest
    simp [decCount]
  | cons x xs ih =>
    intro rest
    simp only [List.map_cons, List.flatten_cons, List.length_cons,
      List.append_assoc]
    simp only [decCount]
    rw [hfg x ((xs.map f).flatten ++ rest)]
    dsimp only
    rw [ih rest]

theorem decListWith_enc {α : Type} (f : α → List Nat)
    (g : List Nat → Option (α × List Nat))
    (hfg : ∀ x rest, g (f x ++ rest) = some (x, rest))
    (l : List α) (rest : List Nat) :
    decListWith g (encListWith f l ++ rest) = some (l, rest) := by
  simp only [decListWith, encListWith, List.append_assoc, decVarint_enc]
  exact decCount_enc f g hfg l rest

theorem decOptionWith_enc {α : Type} (f : α → List Nat)
    (g : List Nat → Option (α × List Nat))
    (hfg : ∀ x rest, g (f x ++ rest) = some (x, rest))
    (o : Option α) (rest : List Nat) :
    decOptionWith g (encOptionWith f o ++ rest) = some (o, rest) := by
  cases o with
  | none => rfl
  | some a =>
    show decOptionWith g (1 :: (f a ++ rest)) = _
    simp only [decOptionWith]
    rw [hfg a rest]

theorem decString_enc (s : String) (rest : List Nat) :
    decString (encString s ++ rest) = some (s, rest) := by
  simp only [decString, encString,
    decListWith_enc encChar decChar decChar_enc]
  rfl

theorem decRat_enc (q : ℚ) (rest : List Nat) :
    decRat (encRat q ++ rest) = some (q, rest) := by
  simp only [decRat, encRat, List.append_assoc, decInt_enc, decVarint_enc]
  rw [Rat.num_div_den]

theorem decStringPairWith_enc {α : Type} (f : α → List Nat)
    (g : List Nat → Option (α × List Nat))
    (hfg : ∀ x rest, g (f x ++ rest) = some (x, rest))
    (p : String × α) (rest : List Nat) :
    decStringPairWith g (encStringPairWith f p ++ rest) = some (p, rest) := by
  simp only [decStringPairWith, encStringPairWith, List.append_assoc,
    decString_enc]
  rw [hfg p.2 rest]

theorem decAutoscaling_enc (a : ProtoAutoscaling) (rest : List Nat) :
    decAutoscaling (encAutoscaling a ++ rest) = some (a, rest) := by
  simp only [decAutoscaling, encAutoscaling, List.append_assoc,
    decBool_enc, decInt_enc]

theorem decHealthCheckMsg_enc (h : ProtoHealthCheck) (rest : List Nat) :
    decHealthCheckMsg (encHealthCheckMsg h ++ rest) = some (h, rest) := by
  simp only [decHealthCheckMsg, encHealthCheckMsg, List.append_assoc,
    decBool_enc, decString_enc]

theorem decDomain_enc (d : ProtoDomain) (rest : List Nat) :
    decDomain (encDomain d ++ rest) = some (d, rest) := by
  simp only [decDomain, encDomain, decString_enc]

theorem decServiceType_enc (t : ServiceType) (rest : List Nat) :
    decServiceType (encServiceType t ++ rest) = some (t, rest) := by
  cases t <;> rfl

theorem decServiceConfig_enc (c : ServiceConfig) (rest : List Nat) :
    decServiceConfig (encServiceConfig c ++ rest) = some (c, rest) := by
  cases c with
  | webConfig w =>
    show decServiceConfig (0 ::
      ((encOptionWith encAutoscaling w.autoscaling ++
        encOptionWith encHealthCheckMsg w.healthCheck ++
        encListWith encDomain w.domains) ++ rest)) = _
    simp only [decServiceConfig, List.append_assoc,
      decOptionWith_enc encAutoscaling decAutoscaling decAutoscaling_enc,
      decOptionWith_enc encHealthCheckMsg decHealthCheckMsg
        decHealthCheckMsg_enc,
      decListWith_enc encDomain decDomain decDomain_enc]
  | workerConfig w =>
    show decServiceConfig (1 ::
      (encOptionWith encAutoscaling w.autoscaling ++ rest)) = _
    simp only [decServiceConfig,
      decOptionWith_enc encAutoscaling decAutoscaling decAutoscaling_enc]
  | jobConfig j =>
    show decServiceConfig (2 ::
      ((encBool j.allowConcurrent ++ encString j.cron) ++ rest)) = _
    simp only [decServiceConfig, List.append_assoc, decBool_enc,
      decString_enc]

theorem decService_enc (s : ProtoService) (rest : List Nat) :
    decService (encService s ++ rest) = some (s, rest) := by
  simp only [decService, encService, List.append_assoc, decString_enc,
    decServiceType_enc, decInt_enc, decRat_enc, decServiceConfig_enc]

theorem decBuildMsg_enc (b : ProtoBuild) (rest : List Nat) :
    decBuildMsg (encBuildMsg b ++ rest) = some (b, rest) := by
  simp only [decBuildMsg, encBuildMsg, List.append_assoc, decString_enc,
    decListWith_enc encString decString decString_enc]

theorem decImageMsg_enc (i : AppImage) (rest : List Nat) :
    decImageMsg (encImageMsg i ++ rest) = some (i, rest) := by
  simp only [decImageMsg, encImageMsg, List.append_assoc, decString_enc]

theorem decEnvEntry_enc (p : String × String) (rest : List Nat) :
    decEnvEntry (encEnvEntry p ++ rest) = some (p, rest) := by
  simp only [decEnvEntry, encEnvEntry,
    decStringPairWith_enc encString decString decString_enc]

theorem decPorterApp_enc (p : PorterApp) (rest : List Nat) :
    decPorterApp (encPorterApp p ++ rest) = some (p, rest) := by
  simp only [decPorterApp, encPorterApp, List.append_assoc, decString_enc,
    decListWith_enc encEnvEntry decEnvEntry decEnvEntry_enc,
    decOptionWith_enc encBuildMsg decBuildMsg decBuildMsg_enc,
    decOptionWith_enc encImageMsg decImageMsg decImageMsg_enc,
    decListWith_enc (encStringPairWith encService)
      (decStringPairWith decService)
      (decStringPairWith_enc encService decService decService_enc),
    decOptionWith_enc encService decService decService_enc]

theorem mem_append_lt {l1 l2 : List Nat} (h1 : ∀ b ∈ l1, b < 256)
    (h2 : ∀ b ∈ l2, b < 256) : ∀ b ∈ l1 ++ l2, b < 256 := by
  intro b hb
  rcases List.mem_append.mp hb with h | h
  · exact h1 b h
  · exact h2 b h

theorem encVarint_lt (n : Nat) : ∀ b ∈ encVarint n, b < 256 := by
  induction n using Nat.strong_induction_on with
  | _ n ih =>
    rw [encVarint]
    by_cases h : n < 128
    · rw [dif_pos h]
      intro b hb
      simp only [List.mem_singleton] at hb
      omega
    · rw [dif_neg h]
      intro b hb
      rcases List.mem_cons.mp hb with hb | hb
      · omega
      · exact ih (n / 128) (by omega) b hb

theorem encBool_lt (b : Bool) : ∀ x ∈ encBool b, x < 256 := by
  cases b <;> simp [encBool]

theorem encInt_lt (i : Int) : ∀ b ∈ encInt i, b < 256 := by
  cases i with
  | ofNat n =>
    intro b hb
    rcases List.mem_cons.mp hb with hb | hb
    · omega
    · exact encVarint_lt n b hb
  | negSucc n =>
    intro b hb
    rcases List.mem_cons.mp hb with hb | hb
    · omega
    · exact encVarint_lt n b hb

theorem encChar_lt (c : Char) : ∀ b ∈ encChar c, b < 256 :=
  encVarint_lt c.toNat

theorem encListWith_lt {α : Type} (f : α → List Nat)
    (hf : ∀ x, ∀ b ∈ f x, b < 256) (l : List α) :
    ∀ b ∈ encListWith f l, b < 256 := by
  apply mem_append_lt (encVarint_lt l.length)
  intro b hb
  obtain ⟨bs, hbs, hbmem⟩ := List.mem_flatten.mp hb
  obtain ⟨x, _, hfx⟩ := List.mem_map.mp hbs
  exact hf x b (hfx ▸ hbmem)

theorem encOptionWith_lt {α : Type} (f : α → List Nat)
    (hf : ∀ x, ∀ b ∈ f x, b < 256) (o : Option α) :
    ∀ b ∈ encOptionWith f o, b < 256 := by
  cases o with
  | none => simp [encOptionWith]
  | some a =>
    intro b hb
    rcases List.mem_cons.mp hb with hb | hb
    · omega
    · exact hf a b hb

theorem encString_lt (s : String) : ∀ b ∈ encString s, b < 256 :=
  encListWith_lt encChar encChar_lt s.toList

theorem encRat_lt (q : ℚ) : ∀ b ∈ encRat q, b < 256 :=
  mem_append_lt (encInt_lt q.num) (encVarint_lt q.den)

theorem encStringPairWith_lt {α : Type} (f : α → List Nat)
    (hf : ∀ x, ∀ b ∈ f x, b < 256) (p : String × α) :
    ∀ b ∈ encStringPairWith f p, b < 256 :=
  mem_append_lt (encString_lt p.1) (hf p.2)

theorem encAutoscaling_lt (a : ProtoAutoscaling) :
    ∀ b ∈ encAutoscaling a, b < 256 :=
  mem_append_lt (mem_append_lt (mem_append_lt (mem_append_lt
    (encBool_lt a.enabled) (encInt_lt a.minInstances))
    (encInt_lt a.maxInstances)) (encInt_lt a.cpuThresholdPercent))
    (encInt_lt a.memoryThresholdPercent)

theorem encHealthCheckMsg_lt (h : ProtoHealthCheck) :
    ∀ b ∈ encHealthCheckMsg h, b < 256 :=
  mem_append_lt (encBool_lt h.enabled) (encString_lt h.httpPath)

theorem encDomain_lt (d : ProtoDomain) : ∀ b ∈ encDomain d, b < 256 :=
  encString_lt d.name

theorem encServiceConfig_lt (c : ServiceConfig) :
    ∀ b ∈ encServiceConfig c, b < 256 := by
  cases c with
  | webConfig w =>
    intro b hb
    rcases List.mem_cons.mp hb with hb | hb
    · omega
    · exact mem_append_lt (mem_append_lt
        (encOptionWith_lt encAutoscaling encAutoscaling_lt w.autoscaling)
        (encOptionWith_lt encHealthCheckMsg encHealthCheckMsg_lt
          w.healthCheck))
        (encListWith_lt encDomain encDomain_lt w.domains) b hb
  | workerConfig w =>
    intro b hb
    rcases List.mem_cons.mp hb with hb | hb
    · omega
    · exact encOptionWith_lt encAutoscaling encAutoscaling_lt
        w.autoscaling b hb
  | jobConfig j =>
    intro b hb
    rcases List.mem_cons.mp hb with hb | hb
    · omega
    · exact mem_append_lt (encBool_lt j.allowConcurrent)
        (encString_lt j.cron) b hb

theorem encServiceType_lt (t : ServiceType) :
    ∀ b ∈ encServiceType t, b < 256 := by
  cases t <;> simp [encServiceType]

theorem encService_lt (s : ProtoService) : ∀ b ∈ encService s, b < 256 :=
  mem_append_lt (mem_append_lt (mem_append_lt (mem_append_lt
    (mem_append_lt (mem_append_lt (encString_lt s.run)
      (encServiceType_lt s.type)) (encInt_lt s.instances))
    (encRat_lt s.cpuCores)) (encInt_lt s.ramMegabytes))
    (encInt_lt s.port)) (encServiceConfig_lt s.config)

theorem encBuildMsg_lt (b : ProtoBuild) : ∀ x ∈ encBuildMsg b, x < 256 :=
  mem_append_lt (mem_append_lt (mem_append_lt (mem_append_lt
    (encString_lt b.context) (encString_lt b.method))
    (encString_lt b.builder))
    (encListWith_lt encString encString_lt b.buildpacks))
    (encString_lt b.dockerfile)

theorem encImageMsg_lt (i : AppImage) : ∀ b ∈ encImageMsg i, b < 256 :=
  mem_append_lt (encString_lt i.repository) (encString_lt i.tag)

theorem encEnvEntry_lt (p : String × String) :
    ∀ b ∈ encEnvEntry p, b < 256 :=
  encStringPairWith_lt encString encString_lt p

theorem encPorterApp_lt (p : PorterApp) : ∀ b ∈ encPorterApp p, b < 256 :=
  mem_append_lt (mem_append_lt (mem_append_lt (mem_append_lt
    (mem_append_lt (encString_lt p.name)
      (encListWith_lt encEnvEntry encEnvEntry_lt p.env))
    (encOptionWith_lt encBuildMsg encBuildMsg_lt p.build))
    (encOptionWith_lt encImageMsg encImageMsg_lt p.image))
    (encListWith_lt (encStringPairWith encService)
      (encStringPairWith_lt encService encService_lt) p.services))
    (encOptionWith_lt encService encService_lt p.predeploy)

theorem sextetOfChar_sextetChar : ∀ k, k < 64 →
    sextetOfChar (sextetChar k) = some k := by
  decide

theorem sextetChar_ne_pad : ∀ k, k < 64 → sextetChar k ≠ '=' := by
  decide

theorem b64decode_encode : ∀ (l : List Nat), (∀ b ∈ l, b < 256) →
    b64decode (b64encode l) = some l
  | [], _ => rfl
  | [a], h => by
    have ha : a < 256 := h a (by simp)
    simp only [b64encode, b64decode]
    rw [sextetOfChar_sextetChar (a / 4) (by omega),
      sextetOfChar_sextetChar (a % 4 * 16) (by omega)]
    simp
    omega
  | [a, b], h => by
    have ha : a < 256 := h a (by simp)
    have hb : b < 256 := h b (by simp)
    simp only [b64encode, b64decode]
    rw [sextetOfChar_sextetChar (a / 4) (by omega),
      sextetOfChar_sextetChar (a % 4 * 16 + b / 16) (by omega)]
    dsimp only
    rw [if_neg (sextetChar_ne_pad (b % 16 * 4) (by omega))]
    rw [sextetOfChar_sextetChar (b % 16 * 4) (by omega)]
    simp
    omega
  | a :: b :: c :: rest, h => by
    have ha : a < 256 := h a (by simp)
    have hb : b < 256 := h b (by simp)
    have hc : c < 256 := h c (by simp)
    have ih := b64decode_encode rest (fun x hx => h x (by simp [hx]))
    simp only [b64encode, b64decode]
    rw [sextetOfChar_sextetChar (a / 4) (by omega),
      sextetOfChar_sextetChar (a % 4 * 16 + b / 16) (by omega)]
    dsimp only
    rw [if_neg (sextetChar_ne_pad (b % 16 * 4 + c / 64) (by omega))]
    rw [sextetOfChar_sextetChar (b % 16 * 4 + c / 64) (by omega)]
    dsimp only
    rw [if_neg (sextetChar_ne_pad (c % 64) (by omega))]
    rw [sextetOfChar_sextetChar (c % 64) (by omega)]
    dsimp only
    rw [ih]
    simp
    omega

/-- C2: decoding the encoding of any canonical specification — the
binary proto form wrapped in the text-safe base64 encoding — yields the
specification field for field: both the binary codec and the base64
text wrapping are round-trip exact. -/
theorem wire_roundtrip (p : PorterApp) :
    decodeAppB64 (encodeAppB64 p) = some p := by
  unfold decodeAppB64 encodeAppB64
  rw [show (String.mk (b64encode (encPorterApp p))).toList =
    b64encode (encPorterApp p) from rfl]
  rw [b64decode_encode (encPorterApp p) (encPorterApp_lt p)]
  dsimp only
  have hdec := decPorterApp_enc p []
  rw [List.append_nil] at hdec
  rw [hdec]


end Porter
